import Mathlib

/-!
Shallow embedding of the Sankhya sales-force service layer
(`src/unnamed/part_002` cache service, `src/lib/produtos-service.ts`,
`src/app/api/sankhya/produtos/batch-info/route.ts`), together with
theorems settling the specification claims about it.

JavaScript objects and `Map`s are embedded as association lists
(`List (String × β)`) with JS assignment semantics (overwrite in place,
append if new); JS numbers are embedded as `Option Rat`, `none` playing
the role of `NaN`; timestamps and durations are naturals (milliseconds).
-/

deriving instance DecidableEq for Except

namespace Sankhya

/-- Lookup of a property/key: first binding wins (bindings are kept unique
by `assocSet`). -/
def assocFind {β : Type} (l : List (String × β)) (k : String) : Option β :=
  match l with
  | [] => none
  | (k', v) :: t => if k' = k then some v else assocFind t k

/-- JS assignment `obj[k] = v` / `Map.set`: overwrite an existing binding in
place, otherwise append at the end (JS objects and Maps preserve insertion
order). -/
def assocSet {β : Type} (l : List (String × β)) (k : String) (v : β) :
    List (String × β) :=
  match l with
  | [] => [(k, v)]
  | (k', v') :: t => if k' = k then (k, v) :: t else (k', v') :: assocSet t k v

/-- JS `Map.delete` / `delete obj[k]`: remove the binding for `k`. -/
def assocDelete {β : Type} (l : List (String × β)) (k : String) :
    List (String × β) :=
  match l with
  | [] => []
  | (k', v') :: t => if k' = k then t else (k', v') :: assocDelete t k

/-- JS `s || d` on strings: the empty string is falsy. -/
def jsOrStr (v : Option String) (d : String) : String :=
  match v with
  | some s => if s = "" then d else s
  | none => d

/-- Whether `pat` is a leading segment of `hay` (character lists). -/
def leadsWith : List Char → List Char → Bool
  | [], _ => true
  | _ :: _, [] => false
  | p :: ps, h :: hs => p = h && leadsWith ps hs

/-- Whether `pat` occurs as a contiguous segment of `hay`. -/
def subSearch : List Char → List Char → Bool
  | pat, [] => pat.isEmpty
  | pat, h :: hs => leadsWith pat (h :: hs) || subSearch pat hs

/-- JS `hay.includes(pat)`: literal substring containment. -/
def strContains (hay pat : String) : Bool :=
  subSearch pat.data hay.data

/-- Accumulate a list of decimal digit characters into a natural number. -/
def digitsToNat : List Char → Nat → Nat
  | [], acc => acc
  | c :: cs, acc => digitsToNat cs (acc * 10 + (c.toNat - 48))

/-- Characters skipped as leading whitespace by JS numeric parsing. -/
def jsIsSpace (c : Char) : Bool :=
  c = ' ' || c = '\t' || c = '\n' || c = '\r'

/-- JS `parseFloat`: skip leading whitespace, then parse the longest prefix
of the form `[+-]digits[.digits][(e|E)[+-]digits]`; `none` is `NaN` (no
digit consumed).  Hexadecimal and `Infinity` forms are not modelled. -/
def jsParseFloat (s : String) : Option Rat :=
  let cs := s.data.dropWhile jsIsSpace
  let signAndRest : Rat × List Char :=
    match cs with
    | '-' :: t => (-1, t)
    | '+' :: t => (1, t)
    | _ => (1, cs)
  let sign := signAndRest.1
  let cs1 := signAndRest.2
  let intDigits := cs1.takeWhile Char.isDigit
  let cs2 := cs1.dropWhile Char.isDigit
  let fracAndRest : List Char × List Char :=
    match cs2 with
    | '.' :: t => (t.takeWhile Char.isDigit, t.dropWhile Char.isDigit)
    | _ => ([], cs2)
  let fracDigits := fracAndRest.1
  let cs3 := fracAndRest.2
  if intDigits.isEmpty ∧ fracDigits.isEmpty then
    none
  else
    let mantissa : Rat :=
      (digitsToNat intDigits 0 : Rat) +
        (digitsToNat fracDigits 0 : Rat) / ((10 : Rat) ^ fracDigits.length)
    let expPart : Rat :=
      match cs3 with
      | c :: t =>
        if c = 'e' ∨ c = 'E' then
          let esignAndRest : Bool × List Char :=
            match t with
            | '-' :: u => (true, u)
            | '+' :: u => (false, u)
            | _ => (false, t)
          let eds := esignAndRest.2.takeWhile Char.isDigit
          if eds.isEmpty then 1
          else if esignAndRest.1 then 1 / ((10 : Rat) ^ digitsToNat eds 0)
          else (10 : Rat) ^ digitsToNat eds 0
        else 1
      | [] => 1
    some (sign * mantissa * expPart)

/-- JS `parseInt(s)` (base 10): skip whitespace, optional sign, longest
digit prefix; `none` is `NaN`. -/
def jsParseInt (s : String) : Option Int :=
  let cs := s.data.dropWhile jsIsSpace
  let signAndRest : Int × List Char :=
    match cs with
    | '-' :: t => (-1, t)
    | '+' :: t => (1, t)
    | _ => (1, cs)
  let ds := signAndRest.2.takeWhile Char.isDigit
  if ds.isEmpty then none
  else some (signAndRest.1 * (digitsToNat ds 0 : Int))

/-- JS addition on possibly-NaN numbers: `NaN` absorbs. -/
def jsAdd (a b : Option Rat) : Option Rat :=
  match a, b with
  | some x, some y => some (x + y)
  | _, _ => none

/-! ## Cache service (`src/unnamed/part_002`)

```
interface CacheEntry<T> { data: T; timestamp: number; ttl: number }
```
The `Map<string, CacheEntry<any>>` is embedded as an association list. -/

structure CacheEntry (α : Type) where
  data : α
  timestamp : Nat
  ttl : Nat
deriving DecidableEq, Repr

namespace CacheService

/-- `private defaultTTL = 5 * 60 * 1000`. -/
def defaultTTL : Nat := 5 * 60 * 1000

/-- `set(key, data, ttl?)`: stores `{data, timestamp: Date.now(), ttl: ttl ||
this.defaultTTL}`.  A `ttl` of `0` is falsy in JS, hence falls back to the
default. -/
def set {α : Type} (cache : List (String × CacheEntry α)) (key : String)
    (data : α) (ttl : Option Nat) (now : Nat) : List (String × CacheEntry α) :=
  assocSet cache key
    { data := data
      timestamp := now
      ttl :=
        match ttl with
        | some t => if t = 0 then defaultTTL else t
        | none => defaultTTL }

/-- `get(key)`: returns `null` on a missing entry; on `now - timestamp > ttl`
deletes the entry and returns `null`; otherwise returns the data.  The
returned pair is (value, cache after the lazy expiry deletion). -/
def get {α : Type} (cache : List (String × CacheEntry α)) (key : String)
    (now : Nat) : Option α × List (String × CacheEntry α) :=
  match assocFind cache key with
  | none => (none, cache)
  | some entry =>
    if now - entry.timestamp > entry.ttl then
      (none, assocDelete cache key)
    else
      (some entry.data, cache)

/-- `invalidatePattern(pattern)`: scans all keys, deletes each key containing
`pattern` as a literal substring, counts the deletions, and returns the
count; result is (cache after deletions, count). -/
def invalidatePattern {α : Type} :
    List (String × CacheEntry α) → String → List (String × CacheEntry α) × Nat
  | [], _ => ([], 0)
  | (k, e) :: t, pattern =>
    let r := invalidatePattern t pattern
    if strContains k pattern then (r.1, r.2 + 1) else ((k, e) :: r.1, r.2)

end CacheService

/-! ## Record normalization (`mapearEntidades`, `src/lib/produtos-service.ts`)

A raw entity is a JS object mapping positional keys `"f0"`, `"f1"`, … to
slot objects `{$: value}`; the slot's `$` may itself be absent, so a raw
entity is `List (String × Option String)`.  A clean (normalized) record is
likewise `List (String × Option String)`: JS property assignment can store
`undefined` (`none`) in a present property. -/

/-- `entities.entity` is either a single entity object or an array. -/
inductive EntityData : Type where
  | single (e : List (String × Option String))
  | array (es : List (List (String × Option String)))
deriving DecidableEq, Repr

/-- Reading a JS property: a missing property and a property holding
`undefined` are indistinguishable. -/
def jsGet (obj : List (String × Option String)) (k : String) : Option String :=
  (assocFind obj k).join

/-- The loop `for (let i = 0; i < fieldNames.length; i++) { if
(rawEntity[f_i]) cleanObject[fieldNames[i]] = rawEntity[f_i].$ }`,
carrying the current slot index `i`. -/
def cleanLoop (rawEntity : List (String × Option String)) :
    Nat → List String → List (String × Option String) →
    List (String × Option String)
  | _, [], obj => obj
  | i, name :: rest, obj =>
    cleanLoop rawEntity (i + 1) rest
      (match assocFind rawEntity ("f" ++ toString i) with
       | some dollar => assocSet obj name dollar
       | none => obj)

/-- The `cleanObject` built for one raw entity. -/
def cleanObjectOf (fieldNames : List String)
    (rawEntity : List (String × Option String)) :
    List (String × Option String) :=
  cleanLoop rawEntity 0 fieldNames []

/-- `entityArray.map((rawEntity, index) => …)` from `mapearEntidades`:
builds the clean object, then `cleanObject._id = cleanObject.CODPROD ?
String(cleanObject.CODPROD) : String(index)` (a JS string is falsy exactly
when empty). -/
def mapearLoop (fieldNames : List String) :
    Nat → List (List (String × Option String)) →
    List (List (String × Option String))
  | _, [] => []
  | index, rawEntity :: rest =>
    let cleanObject := cleanObjectOf fieldNames rawEntity
    let idv :=
      match jsGet cleanObject "CODPROD" with
      | some v => if v = "" then toString index else v
      | none => toString index
    assocSet cleanObject "_id" (some idv) :: mapearLoop fieldNames (index + 1) rest

/-- `mapearEntidades(entities)`: wraps a non-array `entity` into a
one-element array, then maps each row to its normalized record. -/
def mapearEntidades (fieldNames : List String) (ed : EntityData) :
    List (List (String × Option String)) :=
  let entityArray :=
    match ed with
    | .array es => es
    | .single e => [e]
  mapearLoop fieldNames 0 entityArray

/-- `responseBody.entities`: the ordered metadata field names, the optional
`entity` member, and the optional `total` string. -/
structure Entities : Type where
  fieldNames : List String
  entity : Option EntityData
  total : Option String
deriving DecidableEq, Repr

/-! ## Token manager (`obterToken`, `src/lib/produtos-service.ts`)

Each element of the response list is the outcome of one login HTTP call, in
the order the attempts would consume them. -/

/-- Outcome of one `axios.post(ENDPOINT_LOGIN, …)` call: an HTTP success
carrying the body's `bearerToken || token` field (possibly absent), or an
axios error with optional HTTP status, optional `response.data.error`
field, and error `message`. -/
inductive LoginResp : Type where
  | ok (token : Option String)
  | err (status : Option Nat) (errField : Option String) (message : String)
deriving DecidableEq, Repr

/-- Observable outcome of `obterToken`: the returned token or thrown error
message, the `cachedToken` module state afterwards, the number of login
HTTP calls made, and the backoff delays (ms) slept between attempts. -/
structure TokenResult : Type where
  result : Except String String
  cached : Option String
  attempts : Nat
  delays : List Nat
deriving DecidableEq, Repr

/-- `obterToken(retryCount)` with module state `cachedToken`: returns the
cached token if present; otherwise performs a login call.  Only a status of
exactly 500 is retried (`MAX_RETRIES = 3`, delay `RETRY_DELAY * (retryCount
+ 1)` with `RETRY_DELAY = 1000`).  A missing token field throws inside the
`try`, which its own `catch` converts (no status) into the generic
authentication failure message. -/
def obterToken (cached : Option String) (resps : List LoginResp)
    (retryCount : Nat) : TokenResult :=
  match cached with
  | some t => ⟨.ok t, some t, 0, []⟩
  | none =>
    match resps with
    | [] => ⟨.error "Falha na autenticação Sankhya: sem resposta", none, 0, []⟩
    | r :: rest =>
      match r with
      | .ok tokenField =>
        match tokenField with
        | some token => ⟨.ok token, some token, 1, []⟩
        | none =>
          ⟨.error ("Falha na autenticação Sankhya: " ++
              "Resposta de login do Sankhya não continha o token esperado."),
            none, 1, []⟩
      | .err status errField message =>
        if status = some 500 ∧ retryCount < 3 then
          let rec1 := obterToken none rest (retryCount + 1)
          ⟨rec1.result, rec1.cached, rec1.attempts + 1,
            1000 * (retryCount + 1) :: rec1.delays⟩
        else if status = some 500 then
          ⟨.error "Serviço Sankhya temporariamente indisponível. Tente novamente em instantes.",
            none, 1, []⟩
        else
          ⟨.error ("Falha na autenticação Sankhya: " ++ (errField.getD message)),
            none, 1, []⟩

/-! ## Authenticated request executor (`fazerRequisicaoAutenticada`)

`obterToken` is assumed to succeed inside the executor model: when the
module token cache is empty a fresh token `mkTok n` (with a strictly
increasing counter `n`) is obtained and cached, which makes "retried with a
freshly obtained credential" observable in `usedTokens`. -/

/-- Fresh tokens issued by successful logins, indexed by a counter. -/
def mkTok (n : Nat) : String :=
  "token" ++ toString n

/-- Outcome of one `axios(config)` call: HTTP success with a body, an HTTP
error with status / optional `response.data.statusMessage` / `message`, a
timeout (`ECONNABORTED`), or a DNS failure (`ENOTFOUND`). -/
inductive ReqResp (α : Type) : Type where
  | ok (body : α)
  | http (status : Nat) (statusMessage : Option String) (message : String)
  | aborted (message : String)
  | noDns (message : String)
deriving DecidableEq, Repr

/-- Observable outcome of `fazerRequisicaoAutenticada`: result or thrown
message, the `cachedToken` state afterwards, the bearer token attached to
each attempt, and the delays slept between attempts. -/
structure ExecResult (α : Type) : Type where
  result : Except String α
  cached : Option String
  usedTokens : List String
  delays : List Nat
deriving DecidableEq, Repr

/-- `fazerRequisicaoAutenticada(url, method, data, retryCount)`: per attempt
obtains a token (cached, or fresh on a cache miss), issues the call, and on
failure applies, in order: 401/403 → clear token and retry once in total
(`retryCount < 1`, 500 ms wait) else throw the session-expired message;
timeout/DNS/5xx → retry while `retryCount < 2` with delay `1000 *
(retryCount + 1)`; then the terminal error messages of the source. -/
def fazerRequisicaoAutenticada {α : Type} (cached : Option String)
    (fresh : Nat) (resps : List (ReqResp α)) (retryCount : Nat) :
    ExecResult α :=
  match resps with
  | [] => ⟨.error "sem resposta", cached, [], []⟩
  | r :: rest =>
    let tok := match cached with | some t => t | none => mkTok fresh
    let cached1 : Option String := some tok
    let fresh1 := if cached.isSome then fresh else fresh + 1
    match r with
    | .ok body => ⟨.ok body, cached1, [tok], []⟩
    | .http status statusMessage message =>
      if status = 401 ∨ status = 403 then
        if retryCount < 1 then
          let rec1 := fazerRequisicaoAutenticada none fresh1 rest (retryCount + 1)
          ⟨rec1.result, rec1.cached, tok :: rec1.usedTokens, 500 :: rec1.delays⟩
        else
          ⟨.error "Sessão expirada. Tente novamente.", none, [tok], []⟩
      else if 500 ≤ status ∧ retryCount < 2 then
        let rec1 := fazerRequisicaoAutenticada cached1 fresh1 rest (retryCount + 1)
        ⟨rec1.result, rec1.cached, tok :: rec1.usedTokens,
          1000 * (retryCount + 1) :: rec1.delays⟩
      else if 500 ≤ status then
        ⟨.error "Serviço temporariamente indisponível. Tente novamente.",
          cached1, [tok], []⟩
      else
        ⟨.error (statusMessage.getD message), cached1, [tok], []⟩
    | .aborted _message =>
      if retryCount < 2 then
        let rec1 := fazerRequisicaoAutenticada cached1 fresh1 rest (retryCount + 1)
        ⟨rec1.result, rec1.cached, tok :: rec1.usedTokens,
          1000 * (retryCount + 1) :: rec1.delays⟩
      else
        ⟨.error "Tempo de resposta excedido. Tente novamente.", cached1, [tok], []⟩
    | .noDns message =>
      if retryCount < 2 then
        let rec1 := fazerRequisicaoAutenticada cached1 fresh1 rest (retryCount + 1)
        ⟨rec1.result, rec1.cached, tok :: rec1.usedTokens,
          1000 * (retryCount + 1) :: rec1.delays⟩
      else
        ⟨.error message, cached1, [tok], []⟩

/-! ## Price lookup (`buscarPrecoProduto`)

The price endpoint is called directly with `axios.get`; one response-list
element is consumed per attempt.  The module-level `cachedToken` effects are
modelled in `obterToken`/`fazerRequisicaoAutenticada` and elided here: the
claims about this function concern the price value and the price cache. -/

/-- Outcome of one price-endpoint attempt: HTTP success carrying
`data.produtos` (`none` when the array is absent; each element is the
product's optional `valor` field), an HTTP error status, a timeout, a
non-HTTP network error, or `obterToken` throwing before the request. -/
inductive PrecoResp : Type where
  | ok (produtos : Option (List (Option String)))
  | errStatus (status : Nat)
  | errTimeout
  | errNetwork
  | tokenFail
deriving DecidableEq, Repr

/-- Whether the attempt outcome was an HTTP success. -/
def PrecoResp.isOk : PrecoResp → Bool
  | .ok _ => true
  | _ => false

/-- Observable outcome of `buscarPrecoProduto`: the returned number, the
price cache afterwards, and the number of attempts consumed. -/
structure PrecoResult : Type where
  preco : Rat
  cache : List (String × CacheEntry Rat)
  tentativas : Nat
deriving DecidableEq, Repr

/-- `buscarPrecoProduto(codProd, retryCount)`: cache lookup under
`preco:<codProd>` first; on a miss, one attempt per response-list element.
On success the price is `parseFloat(produtos[0].valor) || 0` (0 when
`produtos` is absent or empty) and is cached for 10 minutes.  The catch
retries once (`retryCount < 1`) on 401/403 and on timeout/5xx, and
otherwise returns 0 — it never throws. -/
def buscarPrecoProduto (cache : List (String × CacheEntry Rat)) (now : Nat)
    (codProd : String) (resps : List PrecoResp) (retryCount : Nat) :
    PrecoResult :=
  let cacheKey := "preco:" ++ codProd
  match CacheService.get cache cacheKey now with
  | (some cachedPrice, cache1) => ⟨cachedPrice, cache1, 0⟩
  | (none, cache1) =>
    match resps with
    | [] => ⟨0, cache1, 0⟩
    | r :: rest =>
      match r with
      | .ok produtos =>
        let preco : Rat :=
          match produtos with
          | some (valor :: _) =>
            match valor with
            | some s => (jsParseFloat s).getD 0
            | none => 0
          | some [] => 0
          | none => 0
        ⟨preco, CacheService.set cache1 cacheKey preco (some (10 * 60 * 1000)) now, 1⟩
      | .errStatus status =>
        if (status = 401 ∨ status = 403) ∧ retryCount < 1 then
          let rec1 := buscarPrecoProduto cache1 now codProd rest (retryCount + 1)
          ⟨rec1.preco, rec1.cache, rec1.tentativas + 1⟩
        else if 500 ≤ status ∧ retryCount < 1 then
          let rec1 := buscarPrecoProduto cache1 now codProd rest (retryCount + 1)
          ⟨rec1.preco, rec1.cache, rec1.tentativas + 1⟩
        else
          ⟨0, cache1, 1⟩
      | .errTimeout =>
        if retryCount < 1 then
          let rec1 := buscarPrecoProduto cache1 now codProd rest (retryCount + 1)
          ⟨rec1.preco, rec1.cache, rec1.tentativas + 1⟩
        else
          ⟨0, cache1, 1⟩
      | .errNetwork => ⟨0, cache1, 1⟩
      | .tokenFail => ⟨0, cache1, 1⟩

/-! ## Product listing (`consultarProdutos`)

Only the handling of the already-received upstream response is modelled
(the request payload is built from the paging/filter arguments and sent via
the executor; the executor itself is modelled above).  The `entities?`
argument is `none` when `respostaCompleta?.responseBody?.entities` is
falsy. -/

/-- The page object returned by `consultarProdutos`; `total` and
`totalPages` are possibly-NaN JS numbers. -/
structure ProdutosResult : Type where
  produtos : List (List (String × Option String))
  total : Option Int
  page : Nat
  pageSize : Nat
  totalPages : Option Int
deriving DecidableEq, Repr

/-- The empty page object returned by both defensive guards. -/
def emptyProdutosResult (page pageSize : Nat) : ProdutosResult :=
  ⟨[], some 0, page, pageSize, some 0⟩

/-- `consultarProdutos(page, pageSize, …)` applied to a successfully
received response: missing `entities` or missing `entities.entity` yields
the empty page; otherwise the rows are normalized, truncated to `pageSize`,
zero-filled (`ESTOQUE: '0'`, `VLRCOMERC: produto.VLRCOMERC || '0'`), and
`total`/`totalPages` are derived from the truthiness of `entities.total`
(`Math.ceil(parseInt(total)/pageSize)` when present, else row count and
`1`). -/
def consultarProdutos (page pageSize : Nat) (entities? : Option Entities) :
    ProdutosResult :=
  match entities? with
  | none => emptyProdutosResult page pageSize
  | some entities =>
    match entities.entity with
    | none => emptyProdutosResult page pageSize
    | some ed =>
      let lista := mapearEntidades entities.fieldNames ed
      let lista := if lista.length > pageSize then lista.take pageSize else lista
      let produtosComEstoque := lista.map (fun produto =>
        assocSet (assocSet produto "ESTOQUE" (some "0"))
          "VLRCOMERC" (some (jsOrStr (jsGet produto "VLRCOMERC") "0")))
      let totalTruthy : Bool :=
        match entities.total with
        | some s => s != ""
        | none => false
      { produtos := produtosComEstoque
        total :=
          if totalTruthy then
            jsParseInt ((entities.total).getD "")
          else
            some produtosComEstoque.length
        page := page
        pageSize := pageSize
        totalPages :=
          if totalTruthy then
            (jsParseInt ((entities.total).getD "")).map
              (fun n => ⌈(n : Rat) / (pageSize : Rat)⌉)
          else
            some 1 }

/-! ## Stock lookup (`consultarEstoqueProduto`) -/

/-- The result object of `consultarEstoqueProduto`; `estoqueTotal` is a
possibly-NaN JS number. -/
structure EstoqueResult : Type where
  estoques : List (List (String × Option String))
  total : Nat
  estoqueTotal : Option Rat
deriving DecidableEq, Repr

/-- The reducer `(acc, estoque) => acc + parseFloat(estoque.ESTOQUE || '0')`
started at 0: a missing or empty `ESTOQUE` contributes `parseFloat('0') =
0`; a non-numeric one makes the accumulator NaN. -/
def somaEstoques (rows : List (List (String × Option String))) : Option Rat :=
  rows.foldl
    (fun acc row => jsAdd acc (jsParseFloat (jsOrStr (jsGet row "ESTOQUE") "0")))
    (some 0)

/-- `consultarEstoqueProduto(codProd, searchLocal)`: cache lookup under
`estoque:<codProd>:<searchLocal>` first; on a miss the executor's outcome
(`resposta`) is handled — errors rethrow, a response missing `entities` or
`entities.entity` yields the empty result (not cached), and otherwise the
normalized rows with their reduced `estoqueTotal` are cached for 5 minutes
and returned.  Result: (returned value or thrown message, cache after). -/
def consultarEstoqueProduto (cache : List (String × CacheEntry EstoqueResult))
    (now : Nat) (codProd searchLocal : String)
    (resposta : Except String (Option Entities)) :
    Except String EstoqueResult × List (String × CacheEntry EstoqueResult) :=
  let cacheKey := "estoque:" ++ codProd ++ ":" ++ searchLocal
  match CacheService.get cache cacheKey now with
  | (some cachedEstoque, cache1) => (.ok cachedEstoque, cache1)
  | (none, cache1) =>
    match resposta with
    | .error e => (.error e, cache1)
    | .ok none => (.ok ⟨[], 0, some 0⟩, cache1)
    | .ok (some entities) =>
      match entities.entity with
      | none => (.ok ⟨[], 0, some 0⟩, cache1)
      | some ed =>
        let listaEstoquesLimpa := mapearEntidades entities.fieldNames ed
        let resultado : EstoqueResult :=
          ⟨listaEstoquesLimpa, listaEstoquesLimpa.length,
            somaEstoques listaEstoquesLimpa⟩
        (.ok resultado,
          CacheService.set cache1 cacheKey resultado (some (5 * 60 * 1000)) now)

/-! ## Batch product info (`src/app/api/sankhya/produtos/batch-info/route.ts`) -/

/-- One entry of the batch `results` object: `{preco, estoque}` on success
(with `x || 0` zero-coercions), `{preco: 0, estoque: 0, error: true}` when
that code's lookups threw. -/
structure BatchEntry : Type where
  preco : Rat
  estoque : Rat
  error : Bool
deriving DecidableEq, Repr

/-- The route's HTTP response: 400 for a missing/non-array `codigos`, else
200 with the per-code entries in processing order. -/
inductive BatchResponse : Type where
  | badRequest (msg : String)
  | ok (results : List (String × BatchEntry))
deriving DecidableEq, Repr

/-- The body of one loop iteration: `fetch`'s outcome is `some (preco,
estoqueTotal)` when awaiting `Promise.all([buscarPrecoProduto(cod, 0, true),
consultarEstoqueProduto(cod, '', true)])` succeeded (`estoqueTotal` possibly
NaN), `none` when it threw.  The `preco || 0` coercion is the identity on
the non-NaN number `buscarPrecoProduto` returns (0 maps to 0);
`estoque.estoqueTotal || 0` maps NaN to 0. -/
def batchEntryOf (r : Option (Rat × Option Rat)) : BatchEntry :=
  match r with
  | some (preco, estoqueTotal) => ⟨preco, estoqueTotal.getD 0, false⟩
  | none => ⟨0, 0, true⟩

/-- The `for (let i = 0; i < limit; i++)` loop over the already-truncated
code list, recording one entry per code in processing order. -/
def batchLoop (fetch : Nat → String → Option (Rat × Option Rat)) :
    Nat → List String → List (String × BatchEntry)
  | _, [] => []
  | i, cod :: rest =>
    (cod, batchEntryOf (fetch i cod)) :: batchLoop fetch (i + 1) rest

/-- The route's `POST` handler: validates that `codigos` is an array
(`codigos?` is `none` otherwise), computes `limit = Math.min(codigos.length,
10)`, and runs the loop over the first `limit` codes. -/
def batchPost (codigos? : Option (List String))
    (fetch : Nat → String → Option (Rat × Option Rat)) : BatchResponse :=
  match codigos? with
  | none => .badRequest "Códigos de produtos são obrigatórios"
  | some codigos =>
    .ok (batchLoop fetch 0 (codigos.take (min codigos.length 10)))

/-! ## Helper lemmas -/

theorem assocFind_assocSet_self {β : Type} (l : List (String × β)) (k : String)
    (v : β) : assocFind (assocSet l k v) k = some v := by
  induction l with
  | nil => simp [assocSet, assocFind]
  | cons hd t ih =>
    by_cases h : hd.1 = k <;> simp [assocSet, assocFind, h, ih]

theorem assocFind_assocSet_ne {β : Type} (l : List (String × β)) (k k' : String)
    (v : β) (h : k ≠ k') : assocFind (assocSet l k v) k' = assocFind l k' := by
  induction l with
  | nil => simp [assocSet, assocFind, h]
  | cons hd t ih =>
    by_cases hh : hd.1 = k
    · simp [assocSet, assocFind, hh, h]
    · simp [assocSet, assocFind, hh, ih]

/-- `CacheService.get` never fabricates data: any returned value sits in the
store under the queried key, no older than its declared ttl. -/
theorem cacheService_get_fresh {α : Type} (c : List (String × CacheEntry α))
    (k : String) (n : Nat) (w : α) (h : (CacheService.get c k n).1 = some w) :
    ∃ e, assocFind c k = some e ∧ e.data = w ∧ n - e.timestamp ≤ e.ttl := by
  unfold CacheService.get at h
  cases hf : assocFind c k with
  | none => rw [hf] at h; simp at h
  | some e =>
    rw [hf] at h
    by_cases hexp : n - e.timestamp > e.ttl
    · simp [hexp] at h
    · simp [hexp] at h
      exact ⟨e, rfl, h, Nat.le_of_not_lt hexp⟩

/-- The entries matching a pattern and those not matching it partition the
cache. -/
theorem strContains_filter_length {α : Type} (cache : List (String × CacheEntry α))
    (p : String) :
    (cache.filter (fun kv => strContains kv.1 p)).length +
      (cache.filter (fun kv => !strContains kv.1 p)).length = cache.length := by
  induction cache with
  | nil => rfl
  | cons hd t ih =>
    by_cases h : strContains hd.1 p <;> simp [List.filter_cons, h] <;> omega

/-! ## Claim theorems -/

/-- C1, counterexample.  The claim quantifies over every ttl `t`; at `t = 0`
the JS falsy-coalescing `ttl || this.defaultTTL` silently substitutes the
5-minute default, so 1 ms after `set(k, v, 0)` — a time after the declared
ttl of 0 ms has elapsed — `get(k)` still returns `v` instead of the absent
value the claim requires. -/
theorem cacheService_ttl_zero_counterexample :
    (CacheService.get
      (CacheService.set ([] : List (String × CacheEntry Nat)) "k" 7 (some 0) 0)
      "k" 1).1 = some 7 := by
  rfl

/-- C1, amended: for every *positive* ttl `t`, after `set(k, v, t)` a `get(k)`
strictly before `t` has elapsed returns `v` and strictly after `t` has
elapsed returns absent; moreover no `get` ever returns a value older than
its declared ttl.  (At `t = 0` the falsy `ttl` argument falls back to the
5-minute default, which the original claim does not allow.) -/
theorem cacheService_ttl_correct {α : Type} (cache : List (String × CacheEntry α))
    (k : String) (v : α) (t s now : Nat) (ht : 0 < t) :
    (now < s + t →
      (CacheService.get (CacheService.set cache k v (some t) s) k now).1 = some v)
    ∧ (s + t < now →
      (CacheService.get (CacheService.set cache k v (some t) s) k now).1 = none)
    ∧ (∀ (c : List (String × CacheEntry α)) (k' : String) (n : Nat) (w : α),
        (CacheService.get c k' n).1 = some w →
        ∃ e, assocFind c k' = some e ∧ e.data = w ∧ n - e.timestamp ≤ e.ttl) := by
  have hne : t ≠ 0 := Nat.pos_iff_ne_zero.mp ht
  refine ⟨?_, ?_, fun c k' n w h => cacheService_get_fresh c k' n w h⟩
  · intro hlt
    unfold CacheService.get CacheService.set
    rw [assocFind_assocSet_self]
    simp only [hne, if_false]
    have : ¬ (now - s > t) := by omega
    simp [this]
  · intro hgt
    unfold CacheService.get CacheService.set
    rw [assocFind_assocSet_self]
    simp only [hne, if_false]
    have : now - s > t := by omega
    simp [this]

/-- C1 witness: ttl 5 ms, set at 0, read at 3 ms. -/
theorem cacheService_ttl_correct_witness :
    (CacheService.get
      (CacheService.set ([] : List (String × CacheEntry Nat)) "k" 7 (some 5) 0)
      "k" 3).1 = some 7 :=
  (cacheService_ttl_correct [] "k" 7 5 0 3 (by decide)).1 (by decide)

/-- C7: `invalidatePattern(p)` keeps exactly the entries whose key does not
contain `p` as a literal substring (each kept entry unchanged, in order),
removes exactly those whose key does, and returns the number removed. -/
theorem cacheService_invalidatePattern_spec {α : Type}
    (cache : List (String × CacheEntry α)) (p : String) :
    (CacheService.invalidatePattern cache p).1 =
      cache.filter (fun kv => !strContains kv.1 p)
    ∧ (CacheService.invalidatePattern cache p).2 =
      (cache.filter (fun kv => strContains kv.1 p)).length
    ∧ (∀ kv, kv ∈ (CacheService.invalidatePattern cache p).1 ↔
        kv ∈ cache ∧ strContains kv.1 p = false)
    ∧ (CacheService.invalidatePattern cache p).2 +
        (CacheService.invalidatePattern cache p).1.length = cache.length := by
  have hmain : (CacheService.invalidatePattern cache p).1 =
      cache.filter (fun kv => !strContains kv.1 p)
    ∧ (CacheService.invalidatePattern cache p).2 =
      (cache.filter (fun kv => strContains kv.1 p)).length := by
    induction cache with
    | nil => simp [CacheService.invalidatePattern]
    | cons hd t ih =>
      by_cases h : strContains hd.1 p
      · simpa [CacheService.invalidatePattern, List.filter_cons, h] using ih
      · simpa [CacheService.invalidatePattern, List.filter_cons, h] using ih
  refine ⟨hmain.1, hmain.2, ?_, ?_⟩
  · intro kv
    rw [hmain.1]
    simp [List.mem_filter]
  · rw [hmain.1, hmain.2]
    have h2 := strContains_filter_length cache p
    omega

/-- C3, counterexample.  A 502 response is an HTTP 5xx, so the claim demands
a retry (which here would succeed with token `"tok"`); `obterToken` only
retries on status exactly 500 and instead fails at once with the upstream
message, after a single login call and no backoff. -/
theorem obterToken_5xx_counterexample :
    obterToken none
      [.err (some 502) (some "gateway down") "Request failed", .ok (some "tok")] 0 =
      ⟨.error "Falha na autenticação Sankhya: gateway down", none, 1, []⟩ := by
  rfl

/-- C3, amended: with no cached credential, on an HTTP **500** response the
Token Manager retries up to 3 times with linearly increasing backoff (1000 ms
times the attempt number); on success it caches and returns the new
credential; on any non-500 failure it clears the cached credential and fails
with an error carrying the upstream message; after exhausting the 500
retries it clears the cached credential and fails with a fixed
service-unavailable message (not the upstream one). -/
theorem obterToken_amended (rest : List LoginResp) (status : Option Nat)
    (errField : Option String) (message : String) (rc : Nat) :
    (rc < 3 →
      obterToken none (.err (some 500) errField message :: rest) rc =
        ⟨(obterToken none rest (rc + 1)).result,
          (obterToken none rest (rc + 1)).cached,
          (obterToken none rest (rc + 1)).attempts + 1,
          1000 * (rc + 1) :: (obterToken none rest (rc + 1)).delays⟩)
    ∧ (∀ t, obterToken none (.ok (some t) :: rest) rc = ⟨.ok t, some t, 1, []⟩)
    ∧ (3 ≤ rc →
      obterToken none (.err (some 500) errField message :: rest) rc =
        ⟨.error "Serviço Sankhya temporariamente indisponível. Tente novamente em instantes.",
          none, 1, []⟩)
    ∧ (status ≠ some 500 →
      obterToken none (.err status errField message :: rest) rc =
        ⟨.error ("Falha na autenticação Sankhya: " ++ errField.getD message),
          none, 1, []⟩) := by
  refine ⟨fun hrc => ?_, fun t => rfl, fun hrc => ?_, fun hst => ?_⟩
  · simp [obterToken, hrc]
  · have : ¬ rc < 3 := by omega
    simp [obterToken, this]
  · simp [obterToken, hst]

/-- C3 witness: one 500 followed by a successful login: one 1000 ms backoff,
then the fresh token is cached and returned. -/
theorem obterToken_amended_witness :
    obterToken none [.err (some 500) none "boom", .ok (some "tok")] 0 =
      ⟨.ok "tok", some "tok", 2, [1000]⟩ := by
  have h := (obterToken_amended [.ok (some "tok")] (some 500) none "boom" 0).1
    (by decide)
  rw [h]
  rfl

/-- C4, counterexample.  The 401-retry budget is the same `retryCount` the
transient-error retries use: after one 500-driven retry, the first 401 of
this call finds `retryCount = 1`, so instead of the claimed
wait-and-retry-once-with-a-fresh-credential (which would succeed with body
42 here), the call fails at once with the session-expired message. -/
theorem fazerRequisicao_mixed_retry_counterexample :
    fazerRequisicaoAutenticada (some "tokA") 0
      [.http 500 none "boom", .http 401 none "unauth", .ok (42 : Nat)] 0 =
      ⟨.error "Sessão expirada. Tente novamente.", none, ["tokA", "tokA"], [1000]⟩ := by
  rfl

/-- C4, amended: on an HTTP 401/403 response the executor invalidates the
cached credential and, **provided no retry of any kind has yet been
performed for this call** (`retryCount = 0`), waits 500 ms and retries
exactly once with a freshly obtained credential (the recursive call starts
with an empty token cache); any 401/403 arriving once a retry has already
been spent — whether that retry was for an auth or for a transient failure —
fails with the session-expired message. -/
theorem fazerRequisicao_auth_amended {α : Type} (cached : Option String)
    (fresh : Nat) (status : Nat) (sm : Option String) (msg : String)
    (rest : List (ReqResp α)) (hs : status = 401 ∨ status = 403) :
    (fazerRequisicaoAutenticada cached fresh (.http status sm msg :: rest) 0 =
      let tok := cached.getD (mkTok fresh)
      let fresh1 := if cached.isSome then fresh else fresh + 1
      let r := fazerRequisicaoAutenticada (α := α) none fresh1 rest 1
      ⟨r.result, r.cached, tok :: r.usedTokens, 500 :: r.delays⟩)
    ∧ (∀ rc, 1 ≤ rc →
      fazerRequisicaoAutenticada cached fresh (.http status sm msg :: rest) rc =
        ⟨.error "Sessão expirada. Tente novamente.", none,
          [cached.getD (mkTok fresh)], []⟩) := by
  constructor
  · cases cached <;> simp [fazerRequisicaoAutenticada, hs, Option.getD]
  · intro rc hrc
    have : ¬ rc < 1 := by omega
    cases cached <;> simp [fazerRequisicaoAutenticada, hs, this, Option.getD]

/-- A key with no binding: `get` misses and leaves the store untouched. -/
theorem cacheService_get_none {α : Type} (cache : List (String × CacheEntry α))
    (key : String) (now : Nat) (h : assocFind cache key = none) :
    CacheService.get cache key now = (none, cache) := by
  unfold CacheService.get
  rw [h]

/-- On a price-cache miss, any sequence of failed attempts makes
`buscarPrecoProduto` return 0 and leave the cache exactly as it was. -/
theorem buscarPreco_fail_zero (cod : String) (now : Nat) :
    ∀ (resps : List PrecoResp) (cache : List (String × CacheEntry Rat)) (rc : Nat),
      assocFind cache ("preco:" ++ cod) = none →
      (∀ r ∈ resps, r.isOk = false) →
      (buscarPrecoProduto cache now cod resps rc).preco = 0 ∧
        (buscarPrecoProduto cache now cod resps rc).cache = cache := by
  intro resps
  induction resps with
  | nil =>
    intro cache rc hmiss _
    simp [buscarPrecoProduto, cacheService_get_none _ _ _ hmiss]
  | cons r rest ih =>
    intro cache rc hmiss hfail
    have hr := hfail r (by simp)
    have hrest : ∀ x ∈ rest, x.isOk = false := fun x hx => hfail x (by simp [hx])
    have hih := ih cache (rc + 1) hmiss hrest
    cases r with
    | ok p => simp [PrecoResp.isOk] at hr
    | errStatus s =>
      rw [buscarPrecoProduto.eq_def]
      simp only [cacheService_get_none _ _ _ hmiss]
      split
      · exact ⟨hih.1, hih.2⟩
      · split
        · exact ⟨hih.1, hih.2⟩
        · exact ⟨rfl, rfl⟩
    | errTimeout =>
      rw [buscarPrecoProduto.eq_def]
      simp only [cacheService_get_none _ _ _ hmiss]
      split
      · exact ⟨hih.1, hih.2⟩
      · exact ⟨rfl, rfl⟩
    | errNetwork =>
      simp [buscarPrecoProduto, cacheService_get_none _ _ _ hmiss]
    | tokenFail =>
      simp [buscarPrecoProduto, cacheService_get_none _ _ _ hmiss]

/-- C4 witness: a 401 on the first attempt with token `"t0"` in the cache:
the credential is invalidated, the executor waits 500 ms, retries with the
freshly obtained `token0`, and succeeds. -/
theorem fazerRequisicao_auth_amended_witness :
    fazerRequisicaoAutenticada (some "t0") 0 [.http 401 none "u", .ok (7 : Nat)] 0 =
      ⟨.ok 7, some "token0", ["t0", "token0"], [500]⟩ := by
  have h := (fazerRequisicao_auth_amended (α := Nat) (some "t0") 0 401 none "u"
    [.ok 7] (Or.inl rfl)).1
  rw [h]
  rfl

/-- Evaluation of `jsParseFloat` on `"12.50"`: the parse is definitionally a
product of sign, mantissa and exponent factors, which `norm_num` closes. -/
theorem jsParseFloat_eval_1250 : jsParseFloat "12.50" = some ((25 : Rat) / 2) := by
  have d1 : digitsToNat ['1', '2'] 0 = 12 := by decide
  have d2 : digitsToNat ['5', '0'] 0 = 50 := by decide
  show some ((1 : Rat) * ((digitsToNat ['1', '2'] 0 : Rat) +
      (digitsToNat ['5', '0'] 0 : Rat) /
        ((10 : Rat) ^ (['5', '0'] : List Char).length)) * 1) = _
  rw [d1, d2]
  norm_num

/-- Evaluation of `jsParseFloat` on `"3"`. -/
theorem jsParseFloat_eval_3 : jsParseFloat "3" = some (3 : Rat) := by
  have d1 : digitsToNat ['3'] 0 = 3 := by decide
  show some ((1 : Rat) * ((digitsToNat ['3'] 0 : Rat) +
      (digitsToNat ([] : List Char) 0 : Rat) /
        ((10 : Rat) ^ (([] : List Char)).length)) * 1) = _
  rw [d1]
  norm_num [digitsToNat]

/-- Evaluation of `jsParseFloat` on `"2.5"`. -/
theorem jsParseFloat_eval_25 : jsParseFloat "2.5" = some ((5 : Rat) / 2) := by
  have d1 : digitsToNat ['2'] 0 = 2 := by decide
  have d2 : digitsToNat ['5'] 0 = 5 := by decide
  show some ((1 : Rat) * ((digitsToNat ['2'] 0 : Rat) +
      (digitsToNat ['5'] 0 : Rat) /
        ((10 : Rat) ^ ((['5'] : List Char)).length)) * 1) = _
  rw [d1, d2]
  norm_num

/-- C5: with no cached entry for the code, `buscarPrecoProduto` returns the
first upstream price parsed as a number, returns 0 when the price array is
absent or empty, and returns 0 on any sequence of failed attempts; the
model is a total function into the rationals, embedding the source's
never-throws catch-all. -/
theorem buscarPreco_spec (cache : List (String × CacheEntry Rat)) (now : Nat)
    (cod : String) (hmiss : assocFind cache ("preco:" ++ cod) = none) :
    (∀ (v : String) (ps : List (Option String)),
      (buscarPrecoProduto cache now cod [.ok (some (some v :: ps))] 0).preco =
        (jsParseFloat v).getD 0)
    ∧ (buscarPrecoProduto cache now cod [.ok none] 0).preco = 0
    ∧ (buscarPrecoProduto cache now cod [.ok (some [])] 0).preco = 0
    ∧ (∀ (resps : List PrecoResp) (rc : Nat), (∀ r ∈ resps, r.isOk = false) →
        (buscarPrecoProduto cache now cod resps rc).preco = 0) := by
  refine ⟨?_, ?_, ?_,
    fun resps rc hf => (buscarPreco_fail_zero cod now resps cache rc hmiss hf).1⟩
  · intro v ps
    rw [buscarPrecoProduto.eq_def]
    simp [cacheService_get_none _ _ _ hmiss]
  · rw [buscarPrecoProduto.eq_def]
    simp [cacheService_get_none _ _ _ hmiss]
  · rw [buscarPrecoProduto.eq_def]
    simp [cacheService_get_none _ _ _ hmiss]

/-- C5 witness: upstream value `"12.50"` on an empty cache yields 12.5. -/
theorem buscarPreco_spec_witness :
    (buscarPrecoProduto [] 0 "77" [.ok (some [some "12.50"])] 0).preco =
      (25 : Rat) / 2 := by
  have h := (buscarPreco_spec [] 0 "77" (by decide)).1 "12.50" []
  rw [h, jsParseFloat_eval_1250]
  rfl

/-- C9: with no cached entry for the code, a run of failed attempts returns
0 and leaves the cache exactly unchanged, so a subsequent call for the same
code misses the cache again, consumes an upstream attempt, and returns that
attempt's parsed price; a successful response carrying no price caches the
default 0 under `preco:<code>` with a 10-minute (600000 ms) ttl. -/
theorem buscarPreco_cache_only_on_success (cache : List (String × CacheEntry Rat))
    (now now2 : Nat) (cod v : String) (resps rest2 : List PrecoResp)
    (hmiss : assocFind cache ("preco:" ++ cod) = none)
    (hfail : ∀ r ∈ resps, r.isOk = false) :
    (buscarPrecoProduto cache now cod resps 0).preco = 0
    ∧ (buscarPrecoProduto cache now cod resps 0).cache = cache
    ∧ (buscarPrecoProduto ((buscarPrecoProduto cache now cod resps 0).cache)
        now2 cod (.ok (some [some v]) :: rest2) 0).tentativas = 1
    ∧ (buscarPrecoProduto ((buscarPrecoProduto cache now cod resps 0).cache)
        now2 cod (.ok (some [some v]) :: rest2) 0).preco = (jsParseFloat v).getD 0
    ∧ (buscarPrecoProduto cache now cod [.ok none] 0).cache =
        CacheService.set cache ("preco:" ++ cod) 0 (some 600000) now := by
  have hfz := buscarPreco_fail_zero cod now resps cache 0 hmiss hfail
  refine ⟨hfz.1, hfz.2, ?_, ?_, ?_⟩
  · rw [hfz.2, buscarPrecoProduto.eq_def]
    simp [cacheService_get_none _ _ _ hmiss]
  · rw [hfz.2, buscarPrecoProduto.eq_def]
    simp [cacheService_get_none _ _ _ hmiss]
  · rw [buscarPrecoProduto.eq_def]
    simp [cacheService_get_none _ _ _ hmiss]

/-- C9 witness: a network failure on code 9 with an empty cache returns 0
and writes nothing. -/
theorem buscarPreco_cache_only_on_success_witness :
    (buscarPrecoProduto [] 0 "9" [.errNetwork] 0).preco = 0
    ∧ (buscarPrecoProduto [] 0 "9" [.errNetwork] 0).cache = [] := by
  have h := buscarPreco_cache_only_on_success [] 0 3 "9" "3" [.errNetwork] []
    (by decide) (by decide)
  exact ⟨h.1, h.2.1⟩

/-- Folding the stock reducer from accumulator `a` over rows whose `ESTOQUE`
all parse adds up their parsed values. -/
theorem somaEstoques_foldl (rows : List (List (String × Option String))) :
    ∀ (a : Rat),
      (∀ row ∈ rows,
        (jsParseFloat (jsOrStr (jsGet row "ESTOQUE") "0")).isSome = true) →
      rows.foldl
        (fun acc row =>
          jsAdd acc (jsParseFloat (jsOrStr (jsGet row "ESTOQUE") "0")))
        (some a) =
      some (a + (rows.map
        (fun row => (jsParseFloat (jsOrStr (jsGet row "ESTOQUE") "0")).getD 0)).sum) := by
  induction rows with
  | nil => intro a _; simp
  | cons r t ih =>
    intro a hp
    have hr := hp r (by simp)
    have ht : ∀ row ∈ t,
        (jsParseFloat (jsOrStr (jsGet row "ESTOQUE") "0")).isSome = true :=
      fun row hrow => hp row (by simp [hrow])
    obtain ⟨pr, hpr⟩ := Option.isSome_iff_exists.mp hr
    simp only [List.foldl_cons, List.map_cons, List.sum_cons]
    have hstep : jsAdd (some a) (jsParseFloat (jsOrStr (jsGet r "ESTOQUE") "0")) =
        some (a + pr) := by rw [hpr]; rfl
    rw [hstep, ih (a + pr) ht, hpr]
    simp only [Option.getD_some]
    rw [add_assoc]

/-- The stock reducer over all-parseable rows is the plain sum of the parsed
values (missing/empty `ESTOQUE` contributing `parseFloat('0') = 0`). -/
theorem somaEstoques_eq_sum (rows : List (List (String × Option String)))
    (hp : ∀ row ∈ rows,
      (jsParseFloat (jsOrStr (jsGet row "ESTOQUE") "0")).isSome = true) :
    somaEstoques rows =
      some ((rows.map
        (fun row => (jsParseFloat (jsOrStr (jsGet row "ESTOQUE") "0")).getD 0)).sum) := by
  have h := somaEstoques_foldl rows 0 hp
  simpa [somaEstoques] using h

/-- C2, counterexample.  The reducer is `acc + parseFloat(ESTOQUE || '0')`
with no NaN guard: a row whose `ESTOQUE` is the unparseable `"abc"` must,
per the claim, contribute 0 and give `totalStock = 0`; instead
`parseFloat("abc")` is NaN and the whole total becomes NaN (`none`). -/
theorem consultarEstoque_nan_counterexample :
    (consultarEstoqueProduto [] 0 "1" ""
      (.ok (some ⟨["ESTOQUE"], some (.array [[("f0", some "abc")]]), none⟩))).1 =
      .ok ⟨[[("ESTOQUE", some "abc"), ("_id", some "0")]], 1, none⟩ := by
  rfl

/-- C2, amended: on a cache miss with a successful upstream response,
`consultarEstoqueProduto` returns the normalized rows with `estoqueTotal`
equal to the JS sum of each row's `ESTOQUE` parsed by `parseFloat`
(missing or empty values contributing `parseFloat('0') = 0`); when every
row parses, that total is the plain rational sum of the parsed values.  A
row whose `ESTOQUE` does not parse makes the total NaN rather than
contributing 0. -/
theorem consultarEstoque_totalStock (cache : List (String × CacheEntry EstoqueResult))
    (now : Nat) (cod loc : String) (fn : List String) (ed : EntityData)
    (tot : Option String)
    (hmiss : assocFind cache ("estoque:" ++ cod ++ ":" ++ loc) = none)
    (hp : ∀ row ∈ mapearEntidades fn ed,
      (jsParseFloat (jsOrStr (jsGet row "ESTOQUE") "0")).isSome = true) :
    (consultarEstoqueProduto cache now cod loc (.ok (some ⟨fn, some ed, tot⟩))).1 =
      .ok ⟨mapearEntidades fn ed, (mapearEntidades fn ed).length,
        some ((mapearEntidades fn ed).map
          (fun row => (jsParseFloat (jsOrStr (jsGet row "ESTOQUE") "0")).getD 0)).sum⟩ := by
  simp only [consultarEstoqueProduto, cacheService_get_none _ _ _ hmiss]
  rw [somaEstoques_eq_sum _ hp]

/-- C2 witness: rows `[{ESTOQUE:"3"}, {ESTOQUE:"2.5"}]` yield
`estoqueTotal = 11/2 = 5.5`. -/
theorem consultarEstoque_totalStock_witness :
    (consultarEstoqueProduto [] 0 "7" ""
      (.ok (some ⟨["ESTOQUE"],
        some (.array [[("f0", some "3")], [("f0", some "2.5")]]), none⟩))).1 =
      .ok ⟨[[("ESTOQUE", some "3"), ("_id", some "0")],
            [("ESTOQUE", some "2.5"), ("_id", some "1")]], 2,
        some ((11 : Rat) / 2)⟩ := by
  have h := consultarEstoque_totalStock [] 0 "7" "" ["ESTOQUE"]
    (.array [[("f0", some "3")], [("f0", some "2.5")]]) none (by decide) (by decide)
  rw [h]
  have hm : mapearEntidades ["ESTOQUE"]
      (.array [[("f0", some "3")], [("f0", some "2.5")]]) =
      [[("ESTOQUE", some "3"), ("_id", some "0")],
       [("ESTOQUE", some "2.5"), ("_id", some "1")]] := by decide
  rw [hm]
  have h3 : jsOrStr (jsGet [("ESTOQUE", some "3"), ("_id", some "0")] "ESTOQUE") "0" =
      "3" := by decide
  have h25 : jsOrStr (jsGet [("ESTOQUE", some "2.5"), ("_id", some "1")] "ESTOQUE") "0" =
      "2.5" := by decide
  simp only [List.map_cons, List.map_nil, h3, h25, jsParseFloat_eval_3,
    jsParseFloat_eval_25, Option.getD_some, List.sum_cons, List.sum_nil]
  norm_num

/-- C10, counterexample.  An upstream response whose `entities.entity` is
present but an *empty array* contains no entity rows, yet `[]` is truthy in
JS so both guards pass: with no `total` reported the result is
`{produtos: [], total: 0, totalPages: 1}` — `totalPages` is 1, not the 0
the claim requires. -/
theorem consultarProdutos_emptyArray_counterexample :
    consultarProdutos 1 50 (some ⟨["CODPROD"], some (.array []), none⟩) =
      ⟨[], some 0, 1, 50, some 1⟩ := by
  rfl

/-- C10, amended: when the upstream response lacks the expected entities
structure, or its entities carry no `entity` member at all,
`consultarProdutos` returns the empty page object `{produtos: [], total: 0,
page, pageSize, totalPages: 0}` (the model is a total function, embedding
the source's no-throw guards).  A present-but-empty `entity` array instead
flows through the normal path and, with no `total` reported, yields
`totalPages = 1`. -/
theorem consultarProdutos_empty_amended (page pageSize : Nat)
    (fn : List String) (tot : Option String) :
    consultarProdutos page pageSize none = ⟨[], some 0, page, pageSize, some 0⟩
    ∧ consultarProdutos page pageSize (some ⟨fn, none, tot⟩) =
        ⟨[], some 0, page, pageSize, some 0⟩ := by
  exact ⟨rfl, rfl⟩

/-- A name not among the remaining field names is untouched by the
normalization loop. -/
theorem cleanLoop_find_notin (raw : List (String × Option String))
    (fn : List String) (name : String) (h : name ∉ fn) :
    ∀ (i : Nat) (obj : List (String × Option String)),
      assocFind (cleanLoop raw i fn obj) name = assocFind obj name := by
  induction fn with
  | nil => intro i obj; rfl
  | cons n rest ih =>
    have h1 : name ≠ n := by
      intro e; exact h (by simp [e])
    have h2 : name ∉ rest := fun hm => h (List.mem_cons_of_mem _ hm)
    intro i obj
    simp only [cleanLoop]
    cases hslot : assocFind raw ("f" ++ toString i) with
    | some d =>
      rw [ih h2 (i + 1) (assocSet obj n d)]
      exact assocFind_assocSet_ne obj n name d (Ne.symm h1)
    | none =>
      exact ih h2 (i + 1) obj

/-- Looking up the `j`-th field name in the object built by the
normalization loop started at slot index `i` reads slot `f(i+j)` of the raw
entity, falling back to the initial object when the slot is absent. -/
theorem cleanLoop_lookup (raw : List (String × Option String)) :
    ∀ (fn : List String), fn.Nodup →
    ∀ (i : Nat) (obj : List (String × Option String)) (j : Nat)
      (hj : j < fn.length),
      assocFind (cleanLoop raw i fn obj) (fn.get ⟨j, hj⟩) =
        (assocFind raw ("f" ++ toString (i + j))).elim
          (assocFind obj (fn.get ⟨j, hj⟩)) some := by
  intro fn
  induction fn with
  | nil =>
    intro _ i obj j hj
    exact absurd hj (by simp)
  | cons n rest ih =>
    intro hnd i obj j hj
    have hnotin : n ∉ rest := (List.nodup_cons.mp hnd).1
    have hndr : rest.Nodup := (List.nodup_cons.mp hnd).2
    cases j with
    | zero =>
      simp only [List.get, cleanLoop, Nat.add_zero]
      cases hslot : assocFind raw ("f" ++ toString i) with
      | some d =>
        rw [cleanLoop_find_notin raw rest n hnotin (i + 1) (assocSet obj n d)]
        rw [assocFind_assocSet_self]
        simp [Option.elim]
      | none =>
        rw [cleanLoop_find_notin raw rest n hnotin (i + 1) obj]
        simp [Option.elim]
    | succ j' =>
      have hj' : j' < rest.length := by
        simp only [List.length_cons] at hj; omega
      have hgetj : (n :: rest).get ⟨j' + 1, hj⟩ = rest.get ⟨j', hj'⟩ := rfl
      have hne : n ≠ rest.get ⟨j', hj'⟩ := by
        intro e
        exact hnotin (e ▸ List.get_mem rest j' hj')
      have harith : i + (j' + 1) = i + 1 + j' := by omega
      simp only [cleanLoop, hgetj, harith]
      cases hslot : assocFind raw ("f" ++ toString i) with
      | some d =>
        rw [ih hndr (i + 1) (assocSet obj n d) j' hj']
        rw [assocFind_assocSet_ne obj n (rest.get ⟨j', hj'⟩) d hne]
      | none =>
        exact ih hndr (i + 1) obj j' hj'

/-- Element `i` of the mapped entity list, as a function of row `i` of the
input and of the running index. -/
theorem mapearLoop_getElem? (fn : List String) :
    ∀ (es : List (List (String × Option String))) (i0 i : Nat),
      (mapearLoop fn i0 es)[i]? = (es[i]?).map (fun raw =>
        assocSet (cleanObjectOf fn raw) "_id" (some (
          match jsGet (cleanObjectOf fn raw) "CODPROD" with
          | some v => if v = "" then toString (i0 + i) else v
          | none => toString (i0 + i)))) := by
  intro es
  induction es with
  | nil => intro i0 i; rfl
  | cons raw t ih =>
    intro i0 i
    cases i with
    | zero => simp [mapearLoop]
    | succ i' =>
      have harith : i0 + (i' + 1) = i0 + 1 + i' := by omega
      simp only [mapearLoop, List.getElem?_cons_succ, harith]
      exact ih (i0 + 1) i'

/-- The mapped entity list has one record per row. -/
theorem mapearLoop_length (fn : List String) :
    ∀ (es : List (List (String × Option String))) (i0 : Nat),
      (mapearLoop fn i0 es).length = es.length := by
  intro es
  induction es with
  | nil => intro i0; rfl
  | cons raw t ih => intro i0; simp [mapearLoop, ih]

/-- Reading another property is unaffected by a JS assignment. -/
theorem jsGet_assocSet_ne (obj : List (String × Option String))
    (k k' : String) (v : Option String) (h : k ≠ k') :
    jsGet (assocSet obj k v) k' = jsGet obj k' := by
  unfold jsGet
  rw [assocFind_assocSet_ne obj k k' v h]

/-- Reading a property right after assigning it yields the assigned value. -/
theorem jsGet_assocSet_self (obj : List (String × Option String))
    (k : String) (v : Option String) :
    jsGet (assocSet obj k v) k = v := by
  unfold jsGet
  rw [assocFind_assocSet_self]
  rfl

/-- C6: normalization treats a single entity as a one-element sequence,
produces one record per row, and (for duplicate-free field names not
containing `_id`) each record maps the `j`-th declared field name to raw
slot `f j` — present slots carry the slot value, absent slots are skipped —
while `_id` is the record's `CODPROD` value whenever that is present and
non-empty and the row's positional index otherwise, always a string.  In
particular field names `[A,B]` with the single row `{f0:{$:"x"},
f1:{$:"y"}}` normalize to `{A:"x", B:"y", _id:"0"}`. -/
theorem mapearEntidades_spec :
    (∀ (fn : List String) (e : List (String × Option String)),
      mapearEntidades fn (.single e) = mapearEntidades fn (.array [e]))
    ∧ (∀ (fn : List String) (es : List (List (String × Option String))),
      (mapearEntidades fn (.array es)).length = es.length)
    ∧ (mapearEntidades ["A", "B"] (.single [("f0", some "x"), ("f1", some "y")]) =
        [[("A", some "x"), ("B", some "y"), ("_id", some "0")]])
    ∧ (∀ (fn : List String), fn.Nodup → "_id" ∉ fn →
      ∀ (es : List (List (String × Option String))) (i : Nat)
        (raw : List (String × Option String)), es[i]? = some raw →
      ∃ rec1, (mapearEntidades fn (.array es))[i]? = some rec1
        ∧ (∀ (j : Nat) (hj : j < fn.length),
            assocFind rec1 (fn.get ⟨j, hj⟩) = assocFind raw ("f" ++ toString j))
        ∧ (∀ v, jsGet rec1 "CODPROD" = some v → v ≠ "" →
            jsGet rec1 "_id" = some v)
        ∧ ((jsGet rec1 "CODPROD" = none ∨ jsGet rec1 "CODPROD" = some "") →
            jsGet rec1 "_id" = some (toString i))) := by
  refine ⟨fun fn e => rfl, fun fn es => mapearLoop_length fn es 0, by decide,
    fun fn hnd hid es i raw hraw => ?_⟩
  have hmap := mapearLoop_getElem? fn es 0 i
  rw [hraw] at hmap
  simp only [Option.map_some, Nat.zero_add] at hmap
  refine ⟨assocSet (cleanObjectOf fn raw) "_id"
      (some (match jsGet (cleanObjectOf fn raw) "CODPROD" with
             | some v => if v = "" then toString i else v
             | none => toString i)), ?_, ?_, ?_, ?_⟩
  · show (mapearLoop fn 0 es)[i]? = _
    rw [hmap]
    rfl
  · intro j hj
    have hidne : "_id" ≠ fn.get ⟨j, hj⟩ := by
      intro e
      exact hid (e ▸ List.get_mem fn j hj)
    rw [assocFind_assocSet_ne _ _ _ _ hidne]
    have hlook := cleanLoop_lookup raw fn hnd 0 [] j hj
    simp only [Nat.zero_add] at hlook
    rw [show cleanObjectOf fn raw = cleanLoop raw 0 fn [] from rfl, hlook]
    cases assocFind raw ("f" ++ toString j) <;> rfl
  · intro v hv hvne
    rw [jsGet_assocSet_ne _ _ _ _ (by decide)] at hv
    rw [jsGet_assocSet_self]
    simp only [hv]
    simp [hvne]
  · intro hnone
    rcases hnone with h | h <;>
      (rw [jsGet_assocSet_ne _ _ _ _ (by decide)] at h
       rw [jsGet_assocSet_self]
       simp [h])

/-- C6 witness: the `[A,B]` / `{f0:{$:"x"}, f1:{$:"y"}}` instance of the
general record-shape statement. -/
theorem mapearEntidades_spec_witness :
    ∃ rec1,
      (mapearEntidades ["A", "B"]
        (.array [[("f0", some "x"), ("f1", some "y")]]))[0]? = some rec1
      ∧ (∀ (j : Nat) (hj : j < (["A", "B"] : List String).length),
          assocFind rec1 ((["A", "B"] : List String).get ⟨j, hj⟩) =
            assocFind [("f0", some "x"), ("f1", some "y")] ("f" ++ toString j))
      ∧ (∀ v, jsGet rec1 "CODPROD" = some v → v ≠ "" →
          jsGet rec1 "_id" = some v)
      ∧ ((jsGet rec1 "CODPROD" = none ∨ jsGet rec1 "CODPROD" = some "") →
          jsGet rec1 "_id" = some (toString 0)) :=
  mapearEntidades_spec.2.2.2 ["A", "B"] (by decide) (by decide)
    [[("f0", some "x"), ("f1", some "y")]] 0 [("f0", some "x"), ("f1", some "y")]
    (by decide)

/-- The batch loop records exactly one entry per code. -/
theorem batchLoop_length (fetch : Nat → String → Option (Rat × Option Rat)) :
    ∀ (l : List String) (i0 : Nat), (batchLoop fetch i0 l).length = l.length := by
  intro l
  induction l with
  | nil => intro i0; rfl
  | cons cod t ih => intro i0; simp [batchLoop, ih]

/-- The batch loop processes the codes it is given, in order. -/
theorem batchLoop_map_fst (fetch : Nat → String → Option (Rat × Option Rat)) :
    ∀ (l : List String) (i0 : Nat),
      (batchLoop fetch i0 l).map Prod.fst = l := by
  intro l
  induction l with
  | nil => intro i0; rfl
  | cons cod t ih => intro i0; simp [batchLoop, ih]

/-- Entry `j` of the batch loop depends only on code `j` and on `fetch` at
index `i0 + j`. -/
theorem batchLoop_getElem? (fetch : Nat → String → Option (Rat × Option Rat)) :
    ∀ (l : List String) (i0 j : Nat),
      (batchLoop fetch i0 l)[j]? =
        (l[j]?).map (fun cod => (cod, batchEntryOf (fetch (i0 + j) cod))) := by
  intro l
  induction l with
  | nil => intro i0 j; rfl
  | cons cod t ih =>
    intro i0 j
    cases j with
    | zero => simp [batchLoop]
    | succ j' =>
      have harith : i0 + (j' + 1) = i0 + 1 + j' := by omega
      simp only [batchLoop, List.getElem?_cons_succ, harith]
      exact ih (i0 + 1) j'

/-- C8: for a request whose code list is an array, the batch endpoint
processes exactly the first `min(n, 10)` codes in order; a code whose
price/stock fetch throws gets the entry `{preco: 0, estoque: 0, error:
true}`; and every other code's entry is independent of that failure — the
run agrees, at every other position, with a run whose fetcher differs only
at the failing index. -/
theorem batchPost_spec (codigos : List String)
    (fetch fetch' : Nat → String → Option (Rat × Option Rat)) (i : Nat)
    (c : String) (hag : ∀ j, j ≠ i → fetch j = fetch' j)
    (hc : codigos[i]? = some c) (hi : i < 10) (hfail : fetch i c = none) :
    ∃ res res2,
      batchPost (some codigos) fetch = .ok res
      ∧ batchPost (some codigos) fetch' = .ok res2
      ∧ res.length = min codigos.length 10
      ∧ res.map Prod.fst = codigos.take (min codigos.length 10)
      ∧ res[i]? = some (c, ⟨0, 0, true⟩)
      ∧ (∀ j, j ≠ i → res[j]? = res2[j]?) := by
  have hlen : i < codigos.length := by
    rcases List.getElem?_eq_some.mp hc with ⟨h, _⟩
    exact h
  refine ⟨batchLoop fetch 0 (codigos.take (min codigos.length 10)),
    batchLoop fetch' 0 (codigos.take (min codigos.length 10)), rfl, rfl, ?_, ?_, ?_, ?_⟩
  · rw [batchLoop_length, List.length_take]
    omega
  · rw [batchLoop_map_fst]
  · rw [batchLoop_getElem?, List.getElem?_take]
    have hlt : i < min codigos.length 10 := by omega
    rw [if_pos hlt, hc]
    show some (c, batchEntryOf (fetch (0 + i) c)) = _
    rw [Nat.zero_add, hfail]
    rfl
  · intro j hj
    rw [batchLoop_getElem?, batchLoop_getElem?]
    cases (codigos.take (min codigos.length 10))[j]? with
    | none => rfl
    | some cod => simp [Nat.zero_add, hag j hj]

/-- C8 witness: 12 codes, the fourth one's fetch fails, the other runs
agree elsewhere with a fully-succeeding fetcher. -/
theorem batchPost_spec_witness :
    ∃ res res2,
      batchPost (some ["c1", "c2", "c3", "c4", "c5", "c6", "c7", "c8", "c9",
        "c10", "c11", "c12"])
        (fun j _ => if j = 3 then none else some (1, some 2)) = .ok res
      ∧ batchPost (some ["c1", "c2", "c3", "c4", "c5", "c6", "c7", "c8", "c9",
        "c10", "c11", "c12"])
        (fun _ _ => some ((1 : Rat), some (2 : Rat))) = .ok res2
      ∧ res.length = min (["c1", "c2", "c3", "c4", "c5", "c6", "c7", "c8",
          "c9", "c10", "c11", "c12"] : List String).length 10
      ∧ res.map Prod.fst = (["c1", "c2", "c3", "c4", "c5", "c6", "c7", "c8",
          "c9", "c10", "c11", "c12"] : List String).take
          (min (["c1", "c2", "c3", "c4", "c5", "c6", "c7", "c8", "c9", "c10",
            "c11", "c12"] : List String).length 10)
      ∧ res[3]? = some ("c4", ⟨0, 0, true⟩)
      ∧ (∀ j, j ≠ 3 → res[j]? = res2[j]?) :=
  batchPost_spec
    ["c1", "c2", "c3", "c4", "c5", "c6", "c7", "c8", "c9", "c10", "c11", "c12"]
    (fun j _ => if j = 3 then none else some (1, some 2))
    (fun _ _ => some ((1 : Rat), some (2 : Rat))) 3 "c4"
    (by
      intro j hj
      funext st
      simp [hj])
    (by decide) (by decide) (by simp)

end Sankhya
